import Mathlib

/-!
# Scan orchestration of libuhuru (src/libuhuru/src/lib/scan.c)

A shallow embedding of the scan engine: the module chain evaluator
(local_scan_apply_modules), the walker adapter (local_scan_entry), the local and
remote drivers and the observer list, followed by the properties proved of them.

Collaborators whose source is outside src/ (status.h, report.c, dir.c, protocol.c,
unixsock.c, conf.c) are either parameters of the definitions or are modelled from
the specification; each such definition says so in its doc comment.
-/

namespace Scan

/-! ## Data model -/

/-- Modelled from the spec: the verdicts of enum uhuru_file_status. The header
libuhuru/status.h is not under src/; the constructors are the statuses of the
glossary (scan.c itself names UNDECIDED, UNKNOWN_FILE_TYPE, WHITE_LISTED, MALWARE
and IERROR). -/
inductive uhuru_file_status where
  | UHURU_UNDECIDED
  | UHURU_CLEAN
  | UHURU_UNKNOWN_FILE_TYPE
  | UHURU_UNSUPPORTED
  | UHURU_SUSPICIOUS
  | UHURU_MALWARE
  | UHURU_WHITE_LISTED
  | UHURU_IERROR
  deriving DecidableEq, Repr, Fintype

open uhuru_file_status

/-- Modelled from the spec: the rank of a verdict in the verdict lattice (section 3):
UNDECIDED < CLEAN < UNKNOWN_FILE_TYPE/UNSUPPORTED < SUSPICIOUS < MALWARE, with
WHITE_LISTED tied with MALWARE. The spec does not rank IERROR otherwise than as an
absorbing state; it is placed above every other verdict here, so that no verdict
replaces it. -/
def status_rank : uhuru_file_status → Int
  | UHURU_UNDECIDED => 0
  | UHURU_CLEAN => 1
  | UHURU_UNKNOWN_FILE_TYPE => 2
  | UHURU_UNSUPPORTED => 2
  | UHURU_SUSPICIOUS => 3
  | UHURU_MALWARE => 4
  | UHURU_WHITE_LISTED => 4
  | UHURU_IERROR => 5

/-- Modelled from the spec: uhuru_file_status_cmp of statusp.h (not under src/), the
comparison of the verdict lattice: negative when s1 ranks strictly below s2, zero
when they tie, positive otherwise. The evaluator below takes the comparison as a
parameter; this instance is the one the concrete evaluations use. -/
def uhuru_file_status_cmp (s1 s2 : uhuru_file_status) : Int :=
  status_rank s1 - status_rank s2

/-- The value of mod_status in struct uhuru_module: UHURU_MOD_OK or any other value
(module.h is not under src/; scan.c only tests for UHURU_MOD_OK). -/
inductive uhuru_mod_status where
  | UHURU_MOD_OK
  | other (code : Nat)
  deriving DecidableEq, Repr

open uhuru_mod_status

/-- The struct uhuru_module as scan.c uses it: name, mod_status and the scan function.
The call (*mod->scan)(path, mime_type, mod->data, &mod_report) is a function of the
path and the MIME type returning the verdict and the diagnostic written to
mod_report (none for NULL); the module data is fixed during one evaluation. -/
structure uhuru_module where
  name : String
  mod_status : uhuru_mod_status
  scan : String → Option String → uhuru_file_status × Option String

/-- The struct uhuru_report of libuhuru/scan.h. The action is the integer value of
enum uhuru_action; mod_name and mod_report are none when the pointer is NULL. -/
structure uhuru_report where
  path : String
  status : uhuru_file_status
  action : Int
  mod_name : Option String
  mod_report : Option String
  deriving DecidableEq, Repr

/-- The enumerator UHURU_ACTION_NONE of enum uhuru_action. -/
def UHURU_ACTION_NONE : Int := 0

/-- Modelled from the spec: uhuru_report_init of report.c (not under src/). A fresh
Report for a path is undecided, requests no action and has no module attribution. -/
def uhuru_report_init (path : String) : uhuru_report :=
  { path := path, status := UHURU_UNDECIDED, action := UHURU_ACTION_NONE,
    mod_name := none, mod_report := none }

/-- Modelled from the spec: uhuru_report_change of report.c (not under src/). On
adoption the status, module_name and module_report of the Report are all replaced. -/
def uhuru_report_change (report : uhuru_report) (status : uhuru_file_status)
    (mod_name : String) (mod_report : Option String) : uhuru_report :=
  { report with status := status, mod_name := some mod_name, mod_report := mod_report }

/-! ## Module chain evaluator -/

/-- The state of the loop of local_scan_apply_modules: the local current_status and
the Report behind the pointer, together with two ghost logs. calls records every
invocation of a module scan function (index in mod_array and verdict returned);
adopted records the indices for which uhuru_report_change was called. -/
structure apply_state where
  current_status : uhuru_file_status
  report : uhuru_report
  calls : List (Nat × uhuru_file_status)
  adopted : List Nat
  deriving DecidableEq, Repr

/-- The test that ends the loop: current_status is WHITE_LISTED or MALWARE. -/
def is_terminal (s : uhuru_file_status) : Prop :=
  s = UHURU_WHITE_LISTED ∨ s = UHURU_MALWARE

instance (s : uhuru_file_status) : Decidable (is_terminal s) := by
  unfold is_terminal; infer_instance

/-- One iteration of the loop body for a module whose mod_status is OK, up to (not
including) the break test: the scan call, then adoption when the verdict is strictly
greater than current_status, otherwise the diagnostic is freed. -/
def apply_module (cmp : uhuru_file_status → uhuru_file_status → Int) (path : String)
    (mime_type : Option String) (mod : uhuru_module) (i : Nat) (st : apply_state) :
    apply_state :=
  let r := mod.scan path mime_type
  if cmp st.current_status r.1 < 0 then
    { current_status := r.1,
      report := uhuru_report_change st.report r.1 mod.name r.2,
      calls := st.calls ++ [(i, r.1)],
      adopted := st.adopted ++ [i] }
  else
    { st with calls := st.calls ++ [(i, r.1)] }

/-- The for loop of local_scan_apply_modules from index i on, over the remaining
entries of mod_array: modules that are not OK are skipped (continue), and the loop
stops (break) as soon as current_status is WHITE_LISTED or MALWARE. -/
def apply_modules_loop (cmp : uhuru_file_status → uhuru_file_status → Int) (path : String)
    (mime_type : Option String) : List uhuru_module → Nat → apply_state → apply_state
  | [], _, st => st
  | mod :: rest, i, st =>
    if mod.mod_status ≠ UHURU_MOD_OK then
      apply_modules_loop cmp path mime_type rest (i + 1) st
    else
      let st1 := apply_module cmp path mime_type mod i st
      if is_terminal st1.current_status then st1
      else apply_modules_loop cmp path mime_type rest (i + 1) st1

/-- The function local_scan_apply_modules: the loop from index 0, starting from
UHURU_UNDECIDED. The C function returns current_status and updates the Report through
the pointer; both are fields of the result. -/
def local_scan_apply_modules (cmp : uhuru_file_status → uhuru_file_status → Int)
    (path : String) (mime_type : Option String) (mod_array : List uhuru_module)
    (report : uhuru_report) : apply_state :=
  apply_modules_loop cmp path mime_type mod_array 0
    { current_status := UHURU_UNDECIDED, report := report, calls := [], adopted := [] }

/-! ## Observer list and scan structure -/

/-- The enum uhuru_scan_flags of libuhuru/scan.h. -/
def UHURU_SCAN_THREADED : Nat := 1 <<< 0

/-- The second enumerator of enum uhuru_scan_flags. -/
def UHURU_SCAN_RECURSE : Nat := 1 <<< 1

/-- The enum uhuru_scan_status of libuhuru/scan.h (values 1 to 4). -/
inductive uhuru_scan_status where
  | UHURU_SCAN_OK
  | UHURU_SCAN_CANNOT_CONNECT
  | UHURU_SCAN_CONTINUE
  | UHURU_SCAN_COMPLETED
  deriving DecidableEq, Repr

open uhuru_scan_status

/-- The type uhuru_scan_callback_t: a callback receives the Report and its
callback_data (none for NULL) and acts on the state of the observers, of type σ. -/
abbrev uhuru_scan_callback_t (σ : Type) := uhuru_report → Option Nat → σ → σ

/-- The struct callback_entry. -/
structure callback_entry (σ : Type) where
  callback : uhuru_scan_callback_t σ
  callback_data : Option Nat

/-- The struct local_scan: whether the thread pool and the private key exist
(false for NULL). -/
structure local_scan where
  thread_pool : Bool
  private_magic_key : Bool
  deriving DecidableEq, Repr

/-- A frame of the wire protocol: a verb and named string headers. -/
structure protocol_frame where
  verb : String
  headers : List (String × String)
  deriving DecidableEq, Repr

/-- The callbacks that scan.c installs in the protocol handler. -/
inductive remote_cb where
  | remote_scan_cb_scan_file
  | remote_scan_cb_scan_end
  deriving DecidableEq, Repr

/-- Modelled from the spec: the struct protocol_handler of protocol.c (not under
src/): the descriptors, the frames the peer has still to deliver on the input (the
empty list is a closed stream), the frames sent, and the callbacks by verb. -/
structure protocol_handler where
  input_fd : Int
  output_fd : Int
  input : List protocol_frame
  sent : List protocol_frame
  callbacks : List (String × remote_cb)
  deriving DecidableEq, Repr

/-- The struct remote_scan. -/
structure remote_scan where
  sock_path : Option String
  sock : Int
  handler : Option protocol_handler
  deriving DecidableEq, Repr

/-- The struct uhuru_scan. The GArray of callbacks is a list in registration order;
the union of the local and remote state is kept as two fields, of which is_remote
says which one is in use. -/
structure uhuru_scan (σ : Type) where
  path : String
  flags : Nat
  callbacks : List (callback_entry σ)
  is_remote : Bool
  loc : local_scan
  rem : remote_scan

/-- The function uhuru_scan_add_callback: g_array_append_val of the new entry. -/
def uhuru_scan_add_callback {σ : Type} (scan : uhuru_scan σ)
    (callback : uhuru_scan_callback_t σ) (callback_data : Option Nat) : uhuru_scan σ :=
  let entry : callback_entry σ := { callback := callback, callback_data := callback_data }
  { scan with callbacks := scan.callbacks ++ [entry] }

/-- The for loop of uhuru_scan_call_callbacks from index i on; n bounds the number of
iterations left and is the array length at the start. -/
def call_callbacks_loop {σ : Type} (callbacks : List (callback_entry σ))
    (report : uhuru_report) : Nat → Nat → σ → σ
  | 0, _, s => s
  | n + 1, i, s =>
    match callbacks[i]? with
    | none => s
    | some entry =>
      call_callbacks_loop callbacks report n (i + 1)
        (entry.callback report entry.callback_data s)

/-- The function uhuru_scan_call_callbacks: for i from 0 to callbacks->len - 1, call
the callback of entry i on the report and the callback_data of entry i. -/
def uhuru_scan_call_callbacks {σ : Type} (scan : uhuru_scan σ) (report : uhuru_report)
    (s : σ) : σ :=
  call_callbacks_loop scan.callbacks report scan.callbacks.length 0 s

/-! ## Local scan -/

/-- Modelled from the spec: the flag word of enum dir_entry_flag (dir.h is not under
src/) as the set of the three flags the walker emits; the C test
flags & DIR_ENTRY_IS_X reads the field of that name. -/
structure dir_entry_flag where
  DIR_ENTRY_IS_REG : Bool
  DIR_ENTRY_IS_DIR : Bool
  DIR_ENTRY_IS_ERROR : Bool
  deriving DecidableEq, Repr

/-- One call of the walker callback: full_path, flags and error code. -/
structure dir_entry where
  full_path : String
  flags : dir_entry_flag
  errno : Int
  deriving DecidableEq, Repr

/-- The collaborators of scan.c whose source is not under src/, as parameters: the
verdict comparison, the verbosity, the registry query (from the magic handle, none
for NULL, and the path to the applicable modules, none for NULL, and the MIME type),
the status names, strerror, stat (the st_mode on success, none for -1), the walker
dir_map (the calls it makes to its callback, in order, for a path and a recurse
flag), the built-in observers, the configuration value remote/socket-dir, the USER
environment variable, client_socket_create with the frames that the daemon delivers
on the socket, and the conversion of an integer to enum uhuru_file_status. -/
structure scan_env (σ : Type) where
  cmp : uhuru_file_status → uhuru_file_status → Int
  verbose : Int
  uhuru_get_applicable_modules : Option Nat → String →
    Option (List uhuru_module) × Option String
  uhuru_file_status_str : uhuru_file_status → String
  strerror : Int → String
  stat : String → Option Nat
  dir_map : String → Nat → List dir_entry
  alert_callback : uhuru_scan_callback_t σ
  quarantine_callback : uhuru_scan_callback_t σ
  socket_dir : Option String
  user : Option String
  client_socket_create : Option String → Nat → Int
  daemon_frames : List protocol_frame
  status_of_int : Int → uhuru_file_status
  realpath : String → Option String
  uhuru_is_remote : Bool

/-- What a sequential run acts on: the state of the observers, the paths handed to
g_thread_pool_push (run later by the workers, outside this model), whether
g_thread_pool_free has waited for the pool, and the lines written to stdout and by
perror. -/
structure scan_world (σ : Type) where
  obs : σ
  pool : List String
  pool_freed : Bool
  out : List String
  err : List String

/-- The function local_scan_init. -/
def local_scan_init {σ : Type} (env : scan_env σ) (scan : uhuru_scan σ) : uhuru_scan σ :=
  let scan := { scan with loc := { thread_pool := false, private_magic_key := false } }
  let scan := uhuru_scan_add_callback scan env.alert_callback none
  uhuru_scan_add_callback scan env.quarantine_callback none

/-- The function local_scan_file. The local variable status is not initialised in the
C source; status0 is the value it holds when the module chain does not run. -/
def local_scan_file {σ : Type} (env : scan_env σ) (status0 : uhuru_file_status)
    (scan : uhuru_scan σ) (magic : Option Nat) (path : String) (w : scan_world σ) :
    scan_world σ :=
  let report := uhuru_report_init path
  let am := env.uhuru_get_applicable_modules magic path
  let res : uhuru_file_status × uhuru_report :=
    match am.1 with
    | none => (status0, { report with status := UHURU_UNKNOWN_FILE_TYPE })
    | some modules =>
      let st := local_scan_apply_modules env.cmp path am.2 modules report
      (st.current_status, st.report)
  let w := if env.verbose ≥ 3 then
      { w with out := w.out ++ [path ++ ": " ++ env.uhuru_file_status_str res.1 ++ "\n"] }
    else w
  { w with obs := uhuru_scan_call_callbacks scan res.2 w.obs }

/-- The function local_scan_entry, the callback given to the walker. -/
def local_scan_entry {σ : Type} (env : scan_env σ) (status0 : uhuru_file_status)
    (scan : uhuru_scan σ) (full_path : String) (flags : dir_entry_flag) (errno : Int)
    (w : scan_world σ) : scan_world σ :=
  let w :=
    if flags.DIR_ENTRY_IS_ERROR then
      let report := uhuru_report_init full_path
      let report := { report with status := UHURU_IERROR }
      let report := { report with mod_report := some (env.strerror errno) }
      { w with obs := uhuru_scan_call_callbacks scan report w.obs }
    else w
  if !flags.DIR_ENTRY_IS_REG then w
  else if scan.flags &&& UHURU_SCAN_THREADED ≠ 0 then
    { w with pool := w.pool ++ [full_path] }
  else
    local_scan_file env status0 scan none full_path w

/-- The function get_max_threads. -/
def get_max_threads : Nat := 8

/-- The function local_scan_start. -/
def local_scan_start {σ : Type} (scan : uhuru_scan σ) : uhuru_scan_status × uhuru_scan σ :=
  let scan :=
    if scan.flags &&& UHURU_SCAN_THREADED ≠ 0 then
      { scan with loc := { thread_pool := true, private_magic_key := true } }
    else scan
  (UHURU_SCAN_OK, scan)

/-- The macro S_ISREG of sys/stat.h (Linux values of S_IFMT and S_IFREG). -/
def S_ISREG (m : Nat) : Bool := m &&& 0o170000 == 0o100000

/-- The macro S_ISDIR of sys/stat.h. -/
def S_ISDIR (m : Nat) : Bool := m &&& 0o170000 == 0o040000

/-- The function local_scan_run. The struct stat sb is not initialised in the C
source: when stat fails, sb.st_mode keeps the value sb0 that the variable held. -/
def local_scan_run {σ : Type} (env : scan_env σ) (status0 : uhuru_file_status)
    (sb0 : Nat) (scan : uhuru_scan σ) (w : scan_world σ) :
    uhuru_scan_status × scan_world σ :=
  let r : Nat × scan_world σ :=
    match env.stat scan.path with
    | none => (sb0, { w with err := w.err ++ ["stat"] })
    | some m => (m, w)
  let st_mode := r.1
  let w := r.2
  let w :=
    if S_ISREG st_mode then
      if scan.flags &&& UHURU_SCAN_THREADED ≠ 0 then
        { w with pool := w.pool ++ [scan.path] }
      else
        local_scan_file env status0 scan none scan.path w
    else if S_ISDIR st_mode then
      let recurse := scan.flags &&& UHURU_SCAN_RECURSE
      (env.dir_map scan.path recurse).foldl
        (fun w e => local_scan_entry env status0 scan e.full_path e.flags e.errno w) w
    else w
  let w :=
    if scan.flags &&& UHURU_SCAN_THREADED ≠ 0 then { w with pool_freed := true } else w
  (UHURU_SCAN_COMPLETED, w)

/-! ## Remote scan -/

/-- The function remote_scan_init: the socket path is the configured socket-dir
followed by the result of the format "/uhuru-%s" on the USER variable. There is no
result when the assertion on socket-dir fails or when USER is unset (a NULL string
argument of the format). -/
def remote_scan_init {σ : Type} (env : scan_env σ) (scan : uhuru_scan σ) :
    Option (uhuru_scan σ) :=
  match env.socket_dir with
  | none => none
  | some sock_dir =>
    match env.user with
    | none => none
    | some user =>
      let sock_path := sock_dir
      let sock_path := sock_path ++ ("/uhuru-" ++ user)
      some { scan with rem := { scan.rem with sock_path := some sock_path } }

/-- Modelled from the spec: protocol_handler_new of protocol.c (not under src/); frames
is what the peer delivers on the input descriptor. -/
def protocol_handler_new (input_fd output_fd : Int) (frames : List protocol_frame) :
    protocol_handler :=
  { input_fd := input_fd, output_fd := output_fd, input := frames, sent := [],
    callbacks := [] }

/-- Modelled from the spec: protocol_handler_add_callback of protocol.c. -/
def protocol_handler_add_callback (h : protocol_handler) (verb : String) (cb : remote_cb) :
    protocol_handler :=
  { h with callbacks := h.callbacks ++ [(verb, cb)] }

/-- Modelled from the spec: protocol_handler_send_msg of protocol.c: one frame with the
verb and the headers is written. -/
def protocol_handler_send_msg (h : protocol_handler) (verb : String)
    (headers : List (String × String)) : protocol_handler :=
  { h with sent := h.sent ++ [{ verb := verb, headers := headers }] }

/-- Modelled from the spec: protocol_handler_get_header of protocol.c: the value of the
named header of the frame being handled, none (NULL) when it is absent. -/
def protocol_handler_get_header (f : protocol_frame) (name : String) : Option String :=
  f.headers.lookup name

/-- The C library predicate isspace in the C locale: space, and the control
characters from horizontal tab (9) to carriage return (13), which include the
vertical tab and the form feed. -/
def c_isspace (c : Char) : Bool :=
  c.toNat == 32 || (9 ≤ c.toNat && c.toNat ≤ 13)

/-- The digits part of strtol in base 10: the value of the longest prefix of decimal
digits, accumulated without bound. -/
def atoi_digits : List Char → Int → Int
  | [], acc => acc
  | c :: cs, acc =>
    if c.isDigit then atoi_digits cs (acc * 10 + ((c.toNat : Int) - 48)) else acc

/-- The result of strtol as a 64-bit long: a value out of range is replaced by
LONG_MIN or LONG_MAX. -/
def strtol_clamp (v : Int) : Int :=
  if v < -9223372036854775808 then -9223372036854775808
  else if v > 9223372036854775807 then 9223372036854775807
  else v

/-- The conversion of a long to a 32-bit int: the value modulo 2^32, taken in the
range from -2^31 to 2^31 - 1. -/
def int_of_long (v : Int) : Int :=
  (v + 2147483648) % 4294967296 - 2147483648

/-- The C library function atoi, which is (int) strtol(s, NULL, 10): leading white
space (isspace) is skipped, an optional sign is read, then the decimal digits; the
value is 0 when there is no digit, the long is clamped to 64 bits and the result is
its conversion to a 32-bit int. -/
def atoi (s : String) : Int :=
  match s.toList.dropWhile c_isspace with
  | '-' :: ds => int_of_long (strtol_clamp (- atoi_digits ds 0))
  | '+' :: ds => int_of_long (strtol_clamp (atoi_digits ds 0))
  | ds => int_of_long (strtol_clamp (atoi_digits ds 0))

/-- The function remote_scan_cb_scan_file: a Report is built from the headers of the
frame and fanned out. There is no result when Path, Status or Action is absent (a
NULL argument of strdup or atoi). -/
def remote_scan_cb_scan_file {σ : Type} (env : scan_env σ) (scan : uhuru_scan σ)
    (h : protocol_frame) (s : σ) : Option σ :=
  let path := protocol_handler_get_header h "Path"
  let status := protocol_handler_get_header h "Status"
  let mod_name := protocol_handler_get_header h "Module-Name"
  let x_status := protocol_handler_get_header h "X-Status"
  let action := protocol_handler_get_header h "Action"
  match path, status, action with
  | some path, some status, some action =>
    let report := uhuru_report_init path
    let report := { report with status := env.status_of_int (atoi status) }
    let report := { report with action := atoi action }
    let report := { report with mod_name := mod_name }
    let report :=
      match x_status with
      | some x => { report with mod_report := some x }
      | none => report
    some (uhuru_scan_call_callbacks scan report s)
  | _, _, _ => none

/-- The function remote_scan_cb_scan_end: an empty body. -/
def remote_scan_cb_scan_end {σ : Type} (_h : protocol_frame) (s : σ) : Option σ :=
  some s

/-- The call of an installed callback with the scan as its data. -/
def remote_cb_call {σ : Type} (env : scan_env σ) (scan : uhuru_scan σ) :
    remote_cb → protocol_frame → σ → Option σ
  | remote_cb.remote_scan_cb_scan_file => remote_scan_cb_scan_file env scan
  | remote_cb.remote_scan_cb_scan_end => remote_scan_cb_scan_end

/-- Modelled from the spec: protocol_handler_receive of protocol.c (not under src/). One
receive step: on a closed stream the result is negative; otherwise one frame is
consumed and the callback installed for its verb is called, and the result is
negative when the frame is SCAN_END (completion is signalled) and 0 when more frames
may follow. -/
def protocol_handler_receive {σ : Type} (call : remote_cb → protocol_frame → σ → Option σ)
    (h : protocol_handler) (s : σ) : Option (Int × protocol_handler × σ) :=
  match h.input with
  | [] => some (-1, h, s)
  | f :: rest =>
    let h1 := { h with input := rest }
    let ret : Int := if f.verb = "SCAN_END" then -1 else 0
    match h.callbacks.lookup f.verb with
    | none => some (ret, h1, s)
    | some cb => (call cb f s).map (fun s1 => (ret, h1, s1))

/-- What a C function declared with an enum return type hands to its caller: an
enumerator of enum uhuru_scan_status, an enumerator of enum uhuru_file_status
(converted by its integer value), or nothing defined when control reaches the end of
the function without a return statement. -/
inductive start_value where
  | of_scan_status (s : uhuru_scan_status)
  | of_file_status (s : uhuru_file_status)
  | no_value
  deriving DecidableEq, Repr

/-- The function remote_scan_start, declared to return enum uhuru_file_status: it
returns UHURU_IERROR when the socket cannot be opened, and otherwise installs the
handler and sends the SCAN frame and ends without a return statement. -/
def remote_scan_start {σ : Type} (env : scan_env σ) (scan : uhuru_scan σ) :
    start_value × uhuru_scan σ :=
  let sock := env.client_socket_create scan.rem.sock_path 10
  let scan := { scan with rem := { scan.rem with sock := sock } }
  if sock < 0 then (start_value.of_file_status UHURU_IERROR, scan)
  else
    let handler := protocol_handler_new sock sock env.daemon_frames
    let handler := protocol_handler_add_callback handler "SCAN_FILE"
      remote_cb.remote_scan_cb_scan_file
    let handler := protocol_handler_add_callback handler "SCAN_END"
      remote_cb.remote_scan_cb_scan_end
    let handler := protocol_handler_send_msg handler "SCAN" [("Path", scan.path)]
    (start_value.no_value, { scan with rem := { scan.rem with handler := some handler } })

/-- The function remote_scan_run: one receive step; COMPLETED when it is negative,
CONTINUE otherwise. There is no result without a handler (a NULL handler). -/
def remote_scan_run {σ : Type} (env : scan_env σ) (scan : uhuru_scan σ) (s : σ) :
    Option (uhuru_scan_status × uhuru_scan σ × σ) :=
  match scan.rem.handler with
  | none => none
  | some handler =>
    match protocol_handler_receive (remote_cb_call env scan) handler s with
    | none => none
    | some (ret, handler1, s1) =>
      let scan1 := { scan with rem := { scan.rem with handler := some handler1 } }
      if ret < 0 then some (UHURU_SCAN_COMPLETED, scan1, s1)
      else some (UHURU_SCAN_CONTINUE, scan1, s1)

/-! ## Common API -/

/-- The function uhuru_scan_new: NULL (none) when realpath fails; otherwise the scan
with the canonical path, the flags, an empty callback array and the state of its
mode. -/
def uhuru_scan_new {σ : Type} (env : scan_env σ) (path : String) (flags : Nat) :
    Option (uhuru_scan σ) :=
  match env.realpath path with
  | none => none
  | some rp =>
    let scan : uhuru_scan σ :=
      { path := rp, flags := flags, callbacks := [], is_remote := env.uhuru_is_remote,
        loc := { thread_pool := false, private_magic_key := false },
        rem := { sock_path := none, sock := 0, handler := none } }
    if scan.is_remote then remote_scan_init env scan
    else some (local_scan_init env scan)

/-- The function uhuru_scan_get_poll_fd: the socket of a remote scan, -1 (and a line on
stderr) for a local one. -/
def uhuru_scan_get_poll_fd {σ : Type} (scan : uhuru_scan σ) (w : scan_world σ) :
    Int × scan_world σ :=
  if scan.is_remote then (scan.rem.sock, w)
  else
    (-1, { w with err := w.err ++
      ["cannot call uhuru_scan_get_poll_fd() for a local scan\n"] })

/-- The function uhuru_scan_start. -/
def uhuru_scan_start {σ : Type} (env : scan_env σ) (scan : uhuru_scan σ) :
    start_value × uhuru_scan σ :=
  if scan.is_remote then remote_scan_start env scan
  else
    let r := local_scan_start scan
    (start_value.of_scan_status r.1, r.2)

/-- The function uhuru_scan_run. -/
def uhuru_scan_run {σ : Type} (env : scan_env σ) (status0 : uhuru_file_status)
    (sb0 : Nat) (scan : uhuru_scan σ) (w : scan_world σ) :
    Option (uhuru_scan_status × uhuru_scan σ × scan_world σ) :=
  if scan.is_remote then
    (remote_scan_run env scan w.obs).map
      (fun r => (r.1, r.2.1, { w with obs := r.2.2 }))
  else
    let r := local_scan_run env status0 sb0 scan w
    some (r.1, scan, r.2)

/-! ## Order hypothesis, loop invariant and inputs of the concrete evaluations -/

/-- The comparison is that of a total preorder when its strict part (a negative
result) is asymmetric and negatively transitive. -/
def verdict_order (cmp : uhuru_file_status → uhuru_file_status → Int) : Prop :=
  (∀ a b, cmp a b < 0 → ¬ cmp b a < 0) ∧
  (∀ a b c, cmp a b < 0 → cmp a c < 0 ∨ cmp c b < 0)

/-- What holds of the loop state when the modules of index below n have been
processed, for the array mods and the Report r0 given to the evaluator: the call log
is exactly the OK modules below n in index order, the status is UNDECIDED or a
verdict of the log, the Report carries the last adopted module, a terminal verdict
can only have been adopted by the module just processed, and, when the comparison is
a total preorder, the status is not below any verdict of the log and every earlier
verdict is strictly below the verdict of the last adopted module. -/
structure chain_inv (cmp : uhuru_file_status → uhuru_file_status → Int) (path : String)
    (mime : Option String) (mods : List uhuru_module) (r0 : uhuru_report) (n : Nat)
    (st : apply_state) : Prop where
  calls_sound : ∀ j v, (j, v) ∈ st.calls → j < n ∧ ∃ m, mods[j]? = some m ∧
    m.mod_status = UHURU_MOD_OK ∧ (m.scan path mime).1 = v
  calls_complete : ∀ j m, j < n → mods[j]? = some m → m.mod_status = UHURU_MOD_OK →
    (j, (m.scan path mime).1) ∈ st.calls
  calls_sorted : (st.calls.map Prod.fst).Pairwise (· < ·)
  cur_mem : st.current_status = UHURU_UNDECIDED ∨ ∃ j, (j, st.current_status) ∈ st.calls
  frame : st.report.path = r0.path ∧ st.report.action = r0.action
  none_adopted : st.adopted = [] → st.current_status = UHURU_UNDECIDED ∧ st.report = r0
  last_adopted : ∀ k, st.adopted.getLast? = some k → k < n ∧ ∃ m, mods[k]? = some m ∧
    m.mod_status = UHURU_MOD_OK ∧ st.current_status = (m.scan path mime).1 ∧
    st.report.status = (m.scan path mime).1 ∧ st.report.mod_name = some m.name ∧
    st.report.mod_report = (m.scan path mime).2
  adopted_terminal : ∀ k, k ∈ st.adopted → k < n ∧ ∀ m, mods[k]? = some m →
    is_terminal (m.scan path mime).1 →
    st.current_status = (m.scan path mime).1 ∧ k + 1 = n
  ord : verdict_order cmp →
    (∀ j v, (j, v) ∈ st.calls → ¬ cmp st.current_status v < 0) ∧
    ¬ cmp st.current_status UHURU_UNDECIDED < 0 ∧
    (∀ k, st.adopted.getLast? = some k → ∀ j v, (j, v) ∈ st.calls → j < k →
      cmp v st.current_status < 0)

/-- A module with a fixed name, status, verdict and diagnostic, for the concrete
evaluations. -/
def fixed_module (name : String) (mod_status : uhuru_mod_status) (verdict : uhuru_file_status)
    (diag : Option String) : uhuru_module :=
  { name := name, mod_status := mod_status, scan := fun _ _ => (verdict, diag) }

/-- A chain that stops before its end: CLEAN, a module that is not OK, SUSPICIOUS,
MALWARE, and after the MALWARE module one that returns IERROR, which the comparison
of the verdict lattice ranks above MALWARE. -/
def stopping_chain : List uhuru_module :=
  [fixed_module "m0" UHURU_MOD_OK UHURU_CLEAN none,
   fixed_module "m1" (other 1) UHURU_WHITE_LISTED none,
   fixed_module "m2" UHURU_MOD_OK UHURU_SUSPICIOUS (some "heuristic"),
   fixed_module "m3" UHURU_MOD_OK UHURU_MALWARE (some "Eicar"),
   fixed_module "m4" UHURU_MOD_OK UHURU_IERROR none]

/-- The chain of scenario 2 of the spec for bad.exe: a CLEAN module, a MALWARE module
and a counting module after them. -/
def malware_chain : List uhuru_module :=
  [fixed_module "m0" UHURU_MOD_OK UHURU_CLEAN none,
   fixed_module "m1" UHURU_MOD_OK UHURU_MALWARE (some "Eicar"),
   fixed_module "counting" UHURU_MOD_OK UHURU_SUSPICIOUS none]

/-- The chain of the witness of C3: the second and the third module both return
SUSPICIOUS. -/
def two_suspicious_chain : List uhuru_module :=
  [fixed_module "m0" UHURU_MOD_OK UHURU_CLEAN (some "ok"),
   fixed_module "m1" UHURU_MOD_OK UHURU_SUSPICIOUS (some "first"),
   fixed_module "m2" UHURU_MOD_OK UHURU_SUSPICIOUS (some "second")]

/-- An observer that appends what it is called with (its tag, its callback_data and
the Report) to a log; the state of the observers is then the log of the calls. -/
def log_callback (tag : String) :
    uhuru_scan_callback_t (List (String × Option Nat × uhuru_report)) :=
  fun report data log => log ++ [(tag, data, report)]

/-- The observer state of the concrete evaluations: the log of the calls. -/
abbrev call_log := List (String × Option Nat × uhuru_report)

/-- The environment of the concrete evaluations: the comparison of the verdict
lattice, no applicable module for any file, a root for which stat fails, a walker
that finds nothing, the built-in observers as logging observers, the socket
directory /var/run/uhuru, the user bob, a socket that cannot be opened, and the
integer 1 read as the file status CLEAN. -/
def example_env : scan_env call_log :=
  { cmp := uhuru_file_status_cmp
    verbose := 0
    uhuru_get_applicable_modules := fun _ _ => (none, none)
    uhuru_file_status_str := fun _ => "status"
    strerror := fun e => if e = 13 then "Permission denied" else "Unknown error"
    stat := fun _ => none
    dir_map := fun _ _ => []
    alert_callback := log_callback "alert"
    quarantine_callback := log_callback "quarantine"
    socket_dir := some "/var/run/uhuru"
    user := some "bob"
    client_socket_create := fun _ _ => -1
    daemon_frames := []
    status_of_int := fun n => if n = 1 then UHURU_CLEAN else UHURU_UNDECIDED
    realpath := fun p => some p
    uhuru_is_remote := false }

/-- A local scan of the path with the flags and one logging observer tagged obs. -/
def example_local_scan (path : String) (flags : Nat) : uhuru_scan call_log :=
  { path := path, flags := flags,
    callbacks := [{ callback := log_callback "obs", callback_data := some 7 }],
    is_remote := false,
    loc := { thread_pool := false, private_magic_key := false },
    rem := { sock_path := none, sock := 0, handler := none } }

/-- A remote scan of the path after remote_scan_init, with the socket path of the
user bob and one logging observer tagged obs. -/
def example_remote_scan (path : String) : uhuru_scan call_log :=
  { path := path, flags := 0,
    callbacks := [{ callback := log_callback "obs", callback_data := some 7 }],
    is_remote := true,
    loc := { thread_pool := false, private_magic_key := false },
    rem := { sock_path := some "/var/run/uhuru/uhuru-bob", sock := 0, handler := none } }

/-- A remote scan of the path as uhuru_scan_new holds it before remote_scan_init: no
socket path yet. -/
def example_new_remote_scan (path : String) : uhuru_scan call_log :=
  { path := path, flags := 0, callbacks := [], is_remote := true,
    loc := { thread_pool := false, private_magic_key := false },
    rem := { sock_path := none, sock := 0, handler := none } }

/-- The world before a run: nothing logged, queued or printed. -/
def empty_world : scan_world call_log :=
  { obs := [], pool := [], pool_freed := false, out := [], err := [] }

/-- The environment of the concrete evaluations with a socket that opens
(descriptor 3). -/
def example_env_connected (frames : List protocol_frame) : scan_env call_log :=
  { example_env with
    client_socket_create := fun _ _ => 3
    daemon_frames := frames
    uhuru_is_remote := true }

theorem verdict_order_irrefl {cmp : uhuru_file_status → uhuru_file_status → Int}
    (h : verdict_order cmp) (a : uhuru_file_status) : ¬ cmp a a < 0 :=
  fun ha => h.1 a a ha ha

theorem verdict_order_trans {cmp : uhuru_file_status → uhuru_file_status → Int}
    (h : verdict_order cmp) {a b c : uhuru_file_status} (hab : cmp a b < 0)
    (hbc : cmp b c < 0) : cmp a c < 0 := by
  rcases h.2 a b c hab with hac | hcb
  · exact hac
  · exact absurd hcb (h.1 b c hbc)

theorem uhuru_file_status_cmp_order : verdict_order uhuru_file_status_cmp := by
  constructor
  · intro a b; unfold uhuru_file_status_cmp; omega
  · intro a b c; unfold uhuru_file_status_cmp; omega

theorem undecided_not_terminal : ¬ is_terminal UHURU_UNDECIDED := by
  unfold is_terminal; decide

/-- Loop rule for apply_modules_loop: a property that holds before index n, and that
every iteration carries from n to n + 1 while the status is not terminal, holds of
the result at the index where the loop stopped, which is the end of the array unless
the status is terminal. -/
theorem apply_modules_loop_rule (cmp : uhuru_file_status → uhuru_file_status → Int)
    (path : String) (mime : Option String) (mods : List uhuru_module)
    (Inv : Nat → apply_state → Prop)
    (hskip : ∀ n st m, mods[n]? = some m → m.mod_status ≠ UHURU_MOD_OK → Inv n st →
      ¬ is_terminal st.current_status → Inv (n + 1) st)
    (hstep : ∀ n st m, mods[n]? = some m → m.mod_status = UHURU_MOD_OK → Inv n st →
      ¬ is_terminal st.current_status → Inv (n + 1) (apply_module cmp path mime m n st)) :
    ∀ (suf : List uhuru_module) (n : Nat) (st : apply_state),
      (∀ t, suf[t]? = mods[n + t]?) → Inv n st → ¬ is_terminal st.current_status →
      ∃ k, Inv k (apply_modules_loop cmp path mime suf n st) ∧
        (k = n + suf.length ∨
          is_terminal (apply_modules_loop cmp path mime suf n st).current_status) := by
  intro suf
  induction suf with
  | nil =>
    intro n st _ hI _
    exact ⟨n, by simpa [apply_modules_loop] using hI, Or.inl rfl⟩
  | cons m rest ih =>
    intro n st hsuf hI hnt
    have hm : mods[n]? = some m := by
      have := hsuf 0
      simpa using this.symm
    have hrest : ∀ t, rest[t]? = mods[n + 1 + t]? := by
      intro t
      have := hsuf (t + 1)
      simp only [List.getElem?_cons_succ] at this
      rw [this]
      congr 1
      omega
    by_cases hok : m.mod_status = UHURU_MOD_OK
    · by_cases ht : is_terminal (apply_module cmp path mime m n st).current_status
      · refine ⟨n + 1, ?_, Or.inr ?_⟩
        · simpa [apply_modules_loop, hok, ht] using hstep n st m hm hok hI hnt
        · simp [apply_modules_loop, hok, ht]
      · obtain ⟨k, h1, h2⟩ := ih (n + 1) _ hrest (hstep n st m hm hok hI hnt) ht
        refine ⟨k, ?_, ?_⟩
        · simpa [apply_modules_loop, hok, ht] using h1
        · rcases h2 with h | h
          · left
            simp only [List.length_cons]
            omega
          · right
            simpa [apply_modules_loop, hok, ht] using h
    · obtain ⟨k, h1, h2⟩ := ih (n + 1) st hrest (hskip n st m hm hok hI hnt) hnt
      refine ⟨k, ?_, ?_⟩
      · simpa [apply_modules_loop, hok] using h1
      · rcases h2 with h | h
        · left
          simp only [List.length_cons]
          omega
        · right
          simpa [apply_modules_loop, hok] using h

theorem chain_inv_init (cmp : uhuru_file_status → uhuru_file_status → Int) (path : String)
    (mime : Option String) (mods : List uhuru_module) (r0 : uhuru_report) :
    chain_inv cmp path mime mods r0 0
      { current_status := UHURU_UNDECIDED, report := r0, calls := [], adopted := [] } where
  calls_sound := by intro j v h; simp at h
  calls_complete := by intro j m h; omega
  calls_sorted := by simp
  cur_mem := Or.inl rfl
  frame := ⟨rfl, rfl⟩
  none_adopted := fun _ => ⟨rfl, rfl⟩
  last_adopted := by intro k h; simp at h
  adopted_terminal := by intro k h; simp at h
  ord := by
    intro h
    refine ⟨?_, verdict_order_irrefl h _, ?_⟩
    · intro j v hm; simp at hm
    · intro k hk; simp at hk

theorem chain_inv_skip {cmp : uhuru_file_status → uhuru_file_status → Int} {path : String}
    {mime : Option String} {mods : List uhuru_module} {r0 : uhuru_report} {n : Nat}
    {st : apply_state} {m : uhuru_module} (hm : mods[n]? = some m)
    (hok : m.mod_status ≠ UHURU_MOD_OK) (hI : chain_inv cmp path mime mods r0 n st)
    (hnt : ¬ is_terminal st.current_status) :
    chain_inv cmp path mime mods r0 (n + 1) st where
  calls_sound := by
    intro j v h
    obtain ⟨h1, h2⟩ := hI.calls_sound j v h
    exact ⟨by omega, h2⟩
  calls_complete := by
    intro j mj hj hmj hokj
    by_cases hjn : j < n
    · exact hI.calls_complete j mj hjn hmj hokj
    · have : j = n := by omega
      subst this
      rw [hm] at hmj
      cases hmj
      exact absurd hokj hok
  calls_sorted := hI.calls_sorted
  cur_mem := hI.cur_mem
  frame := hI.frame
  none_adopted := hI.none_adopted
  last_adopted := by
    intro k hk
    obtain ⟨h1, h2⟩ := hI.last_adopted k hk
    exact ⟨by omega, h2⟩
  adopted_terminal := by
    intro k hk
    obtain ⟨h1, h2⟩ := hI.adopted_terminal k hk
    refine ⟨by omega, ?_⟩
    intro mk hmk ht
    obtain ⟨h3, _⟩ := h2 mk hmk ht
    rw [h3] at hnt
    exact absurd ht hnt
  ord := hI.ord

theorem chain_inv_step {cmp : uhuru_file_status → uhuru_file_status → Int} {path : String}
    {mime : Option String} {mods : List uhuru_module} {r0 : uhuru_report} {n : Nat}
    {st : apply_state} {m : uhuru_module} (hm : mods[n]? = some m)
    (hok : m.mod_status = UHURU_MOD_OK) (hI : chain_inv cmp path mime mods r0 n st)
    (hnt : ¬ is_terminal st.current_status) :
    chain_inv cmp path mime mods r0 (n + 1) (apply_module cmp path mime m n st) := by
  have hsound : ∀ (cs : List (Nat × uhuru_file_status)),
      cs = st.calls ++ [(n, (m.scan path mime).1)] →
      (∀ j v, (j, v) ∈ cs → j < n + 1 ∧ ∃ mj, mods[j]? = some mj ∧
        mj.mod_status = UHURU_MOD_OK ∧ (mj.scan path mime).1 = v) ∧
      (∀ j mj, j < n + 1 → mods[j]? = some mj → mj.mod_status = UHURU_MOD_OK →
        (j, (mj.scan path mime).1) ∈ cs) ∧
      (cs.map Prod.fst).Pairwise (· < ·) := by
    intro cs hcs
    subst hcs
    refine ⟨?_, ?_, ?_⟩
    · intro j v h
      rcases List.mem_append.1 h with h | h
      · obtain ⟨h1, h2⟩ := hI.calls_sound j v h
        exact ⟨by omega, h2⟩
      · simp only [List.mem_singleton, Prod.mk.injEq] at h
        obtain ⟨rfl, rfl⟩ := h
        exact ⟨by omega, m, hm, hok, rfl⟩
    · intro j mj hj hmj hokj
      by_cases hjn : j < n
      · exact List.mem_append_left _ (hI.calls_complete j mj hjn hmj hokj)
      · have : j = n := by omega
        subst this
        rw [hm] at hmj
        cases hmj
        exact List.mem_append_right _ (List.mem_singleton.2 rfl)
    · rw [List.map_append, List.pairwise_append]
      refine ⟨hI.calls_sorted, by simp, ?_⟩
      intro a ha b hb
      simp only [List.map_cons, List.map_nil, List.mem_singleton] at hb
      subst hb
      obtain ⟨⟨j, v⟩, hjv, rfl⟩ := List.mem_map.1 ha
      exact (hI.calls_sound j v hjv).1
  have hvac : ∀ k, k ∈ st.adopted → k < n + 1 ∧ ∀ mk, mods[k]? = some mk →
      is_terminal (mk.scan path mime).1 → False := by
    intro k hk
    obtain ⟨h1, h2⟩ := hI.adopted_terminal k hk
    refine ⟨by omega, ?_⟩
    intro mk hmk ht
    obtain ⟨h3, _⟩ := h2 mk hmk ht
    rw [h3] at hnt
    exact hnt ht
  obtain ⟨hs1, hs2, hs3⟩ := hsound _ rfl
  unfold apply_module
  by_cases hc : cmp st.current_status (m.scan path mime).1 < 0
  · simp only [hc, if_true]
    refine ⟨hs1, hs2, hs3, Or.inr ⟨n, by simp⟩, ⟨hI.frame.1, hI.frame.2⟩, by simp, ?_, ?_, ?_⟩
    · intro k hk
      simp only [List.getLast?_concat, Option.some.injEq] at hk
      subst hk
      exact ⟨by omega, m, hm, hok, rfl, rfl, rfl, rfl⟩
    · intro k hk
      rcases List.mem_append.1 hk with hk | hk
      · obtain ⟨h1, h2⟩ := hvac k hk
        exact ⟨h1, fun mk hmk ht => (h2 mk hmk ht).elim⟩
      · simp only [List.mem_singleton] at hk
        subst hk
        refine ⟨by omega, ?_⟩
        intro mk hmk _
        rw [hm] at hmk
        cases hmk
        exact ⟨rfl, rfl⟩
    · intro hord
      obtain ⟨o1, o2, _⟩ := hI.ord hord
      refine ⟨?_, ?_, ?_⟩
      · intro j v h hlt
        rcases List.mem_append.1 h with h | h
        · exact o1 j v h (verdict_order_trans hord hc hlt)
        · simp only [List.mem_singleton, Prod.mk.injEq] at h
          obtain ⟨_, rfl⟩ := h
          exact verdict_order_irrefl hord _ hlt
      · intro hlt
        exact o2 (verdict_order_trans hord hc hlt)
      · intro k hk j v h hjk
        simp only [List.getLast?_concat, Option.some.injEq] at hk
        subst hk
        rcases List.mem_append.1 h with h | h
        · rcases hord.2 _ _ v hc with h1 | h1
          · exact absurd h1 (o1 j v h)
          · exact h1
        · simp only [List.mem_singleton, Prod.mk.injEq] at h
          omega
  · simp only [hc, if_false]
    refine ⟨hs1, hs2, hs3, ?_, hI.frame, hI.none_adopted, ?_, ?_, ?_⟩
    · rcases hI.cur_mem with h | ⟨j, h⟩
      · exact Or.inl h
      · exact Or.inr ⟨j, List.mem_append_left _ h⟩
    · intro k hk
      obtain ⟨h1, h2⟩ := hI.last_adopted k hk
      exact ⟨by omega, h2⟩
    · intro k hk
      obtain ⟨h1, h2⟩ := hvac k hk
      exact ⟨h1, fun mk hmk ht => (h2 mk hmk ht).elim⟩
    · intro hord
      obtain ⟨o1, o2, o3⟩ := hI.ord hord
      refine ⟨?_, o2, ?_⟩
      · intro j v h
        rcases List.mem_append.1 h with h | h
        · exact o1 j v h
        · simp only [List.mem_singleton, Prod.mk.injEq] at h
          obtain ⟨_, rfl⟩ := h
          exact hc
      · intro k hk j v h hjk
        rcases List.mem_append.1 h with h | h
        · exact o3 k hk j v h hjk
        · simp only [List.mem_singleton, Prod.mk.injEq] at h
          have := (hI.last_adopted k hk).1
          omega

/-- The invariant at the end of local_scan_apply_modules: it holds at some index k,
which is the length of the array unless the final status is terminal. -/
theorem local_scan_apply_modules_inv (cmp : uhuru_file_status → uhuru_file_status → Int)
    (path : String) (mime : Option String) (mods : List uhuru_module)
    (r0 : uhuru_report) :
    ∃ k, chain_inv cmp path mime mods r0 k
        (local_scan_apply_modules cmp path mime mods r0) ∧
      (k = mods.length ∨
        is_terminal (local_scan_apply_modules cmp path mime mods r0).current_status) := by
  have h := apply_modules_loop_rule cmp path mime mods (chain_inv cmp path mime mods r0)
    (fun n st m hm hok hI hnt => chain_inv_skip hm hok hI hnt)
    (fun n st m hm hok hI hnt => chain_inv_step hm hok hI hnt)
    mods 0 _ (by intro t; simp) (chain_inv_init cmp path mime mods r0)
    undecided_not_terminal
  simpa [local_scan_apply_modules] using h

theorem chain_inv_terminal_last {cmp : uhuru_file_status → uhuru_file_status → Int}
    {path : String} {mime : Option String} {mods : List uhuru_module} {r0 : uhuru_report}
    {n : Nat} {st : apply_state} (hI : chain_inv cmp path mime mods r0 n st)
    (ht : is_terminal st.current_status) :
    ∃ k, st.adopted.getLast? = some k ∧ k + 1 = n := by
  cases hlast : st.adopted.getLast? with
  | none =>
    have hnil : st.adopted = [] := List.getLast?_eq_none_iff.1 hlast
    have := (hI.none_adopted hnil).1
    rw [this] at ht
    exact absurd ht undecided_not_terminal
  | some k =>
    refine ⟨k, rfl, ?_⟩
    obtain ⟨_, m, hm, _, hcur, _⟩ := hI.last_adopted k hlast
    have hmem : k ∈ st.adopted := List.mem_of_getLast?_eq_some hlast
    exact ((hI.adopted_terminal k hmem).2 m hm (hcur ▸ ht)).2

theorem chain_inv_le_length {cmp : uhuru_file_status → uhuru_file_status → Int}
    {path : String} {mime : Option String} {mods : List uhuru_module} {r0 : uhuru_report}
    {n : Nat} {st : apply_state} (hI : chain_inv cmp path mime mods r0 n st)
    (hn : n = mods.length ∨ is_terminal st.current_status) : n ≤ mods.length := by
  rcases hn with h | h
  · omega
  · obtain ⟨k, hk, hkn⟩ := chain_inv_terminal_last hI h
    obtain ⟨_, m, hm, _⟩ := hI.last_adopted k hk
    have : k < mods.length := by
      by_contra hge
      rw [List.getElem?_eq_none (by omega)] at hm
      cases hm
    omega

/-- C1: for every module array and file, when the comparison is that of a total
preorder, the status computed by local_scan_apply_modules from UNDECIDED is a maximum
of the verdicts returned by the modules that were run, and the modules run are the
OK modules in registry order up to and including the first one whose adoption makes
the status WHITE_LISTED or MALWARE. There is a stop index n such that the calls are
exactly the OK modules of index below n, in index order; when the final status is
not terminal n is the length of the array (every OK module was run); when it is
terminal the chain stopped right after module n - 1, whose verdict was adopted and is
the final status; and no adoption before module n - 1 was that of a terminal verdict.
The status is UNDECIDED or one of the verdicts returned, no verdict returned is
strictly above it, and it is UNDECIDED when no module raised it. -/
theorem C1_status_is_maximum_of_run_verdicts
    (cmp : uhuru_file_status → uhuru_file_status → Int) (hcmp : verdict_order cmp)
    (path : String) (mime_type : Option String) (mod_array : List uhuru_module)
    (report : uhuru_report) :
    (∃ n, n ≤ mod_array.length ∧
      (∀ j v, (j, v) ∈ (local_scan_apply_modules cmp path mime_type mod_array report).calls ↔
        (j < n ∧ ∃ m, mod_array[j]? = some m ∧ m.mod_status = UHURU_MOD_OK ∧
          (m.scan path mime_type).1 = v)) ∧
      (¬ is_terminal
          (local_scan_apply_modules cmp path mime_type mod_array report).current_status →
        n = mod_array.length) ∧
      (is_terminal
          (local_scan_apply_modules cmp path mime_type mod_array report).current_status →
        ∃ k m, (local_scan_apply_modules cmp path mime_type mod_array report).adopted.getLast?
            = some k ∧ k + 1 = n ∧ mod_array[k]? = some m ∧
          m.mod_status = UHURU_MOD_OK ∧
          (m.scan path mime_type).1 =
            (local_scan_apply_modules cmp path mime_type mod_array report).current_status) ∧
      (∀ k m, k ∈ (local_scan_apply_modules cmp path mime_type mod_array report).adopted →
        mod_array[k]? = some m → is_terminal (m.scan path mime_type).1 → k + 1 = n)) ∧
    (((local_scan_apply_modules cmp path mime_type mod_array report).calls.map
      Prod.fst).Pairwise (· < ·)) ∧
    ((local_scan_apply_modules cmp path mime_type mod_array report).current_status
        = UHURU_UNDECIDED ∨
      (local_scan_apply_modules cmp path mime_type mod_array report).current_status ∈
        (local_scan_apply_modules cmp path mime_type mod_array report).calls.map Prod.snd) ∧
    (∀ v, v ∈ (local_scan_apply_modules cmp path mime_type mod_array report).calls.map Prod.snd →
      ¬ cmp (local_scan_apply_modules cmp path mime_type mod_array report).current_status v
        < 0) ∧
    ((local_scan_apply_modules cmp path mime_type mod_array report).adopted = [] →
      (local_scan_apply_modules cmp path mime_type mod_array report).current_status
        = UHURU_UNDECIDED) := by
  obtain ⟨n, hI, hn⟩ := local_scan_apply_modules_inv cmp path mime_type mod_array report
  refine ⟨⟨n, chain_inv_le_length hI hn, ?_, ?_, ?_, ?_⟩, hI.calls_sorted, ?_, ?_, ?_⟩
  · intro j v
    constructor
    · exact hI.calls_sound j v
    · rintro ⟨hj, m, hm, hok, rfl⟩
      exact hI.calls_complete j m hj hm hok
  · intro hnt
    rcases hn with h | h
    · exact h
    · exact absurd h hnt
  · intro ht
    obtain ⟨k, hk, hkn⟩ := chain_inv_terminal_last hI ht
    obtain ⟨_, m, hm, hok, hcur, _⟩ := hI.last_adopted k hk
    exact ⟨k, m, hk, hkn, hm, hok, hcur.symm⟩
  · intro k m hk hm ht
    exact ((hI.adopted_terminal k hk).2 m hm ht).2
  · rcases hI.cur_mem with h | ⟨j, h⟩
    · exact Or.inl h
    · exact Or.inr (List.mem_map.2 ⟨_, h, rfl⟩)
  · intro v hv
    obtain ⟨⟨j, w⟩, hjw, rfl⟩ := List.mem_map.1 hv
    exact (hI.ord hcmp).1 j w hjw
  · intro h
    exact (hI.none_adopted h).1

/-- Witness of C1: on the chain CLEAN, (not OK), SUSPICIOUS, MALWARE, IERROR, under
the comparison of the verdict lattice, the modules 0, 2 and 3 are run and the module
after the MALWARE adoption is not; the status is MALWARE, the stop index is 4, and
no verdict returned is above the status. -/
theorem C1_status_is_maximum_of_run_verdicts_witness :
    verdict_order uhuru_file_status_cmp ∧
    (local_scan_apply_modules uhuru_file_status_cmp "/t/a.txt" (some "text/plain")
      stopping_chain (uhuru_report_init "/t/a.txt")).current_status = UHURU_MALWARE ∧
    (local_scan_apply_modules uhuru_file_status_cmp "/t/a.txt" (some "text/plain")
      stopping_chain (uhuru_report_init "/t/a.txt")).calls
      = [(0, UHURU_CLEAN), (2, UHURU_SUSPICIOUS), (3, UHURU_MALWARE)] ∧
    (∃ n, n ≤ stopping_chain.length ∧
      (∀ j v, (j, v) ∈ (local_scan_apply_modules uhuru_file_status_cmp "/t/a.txt"
          (some "text/plain") stopping_chain (uhuru_report_init "/t/a.txt")).calls ↔
        (j < n ∧ ∃ m, stopping_chain[j]? = some m ∧ m.mod_status = UHURU_MOD_OK ∧
          (m.scan "/t/a.txt" (some "text/plain")).1 = v)) ∧
      (¬ is_terminal (local_scan_apply_modules uhuru_file_status_cmp "/t/a.txt"
          (some "text/plain") stopping_chain (uhuru_report_init "/t/a.txt")).current_status →
        n = stopping_chain.length) ∧
      (is_terminal (local_scan_apply_modules uhuru_file_status_cmp "/t/a.txt"
          (some "text/plain") stopping_chain (uhuru_report_init "/t/a.txt")).current_status →
        ∃ k m, (local_scan_apply_modules uhuru_file_status_cmp "/t/a.txt"
            (some "text/plain") stopping_chain
            (uhuru_report_init "/t/a.txt")).adopted.getLast? = some k ∧ k + 1 = n ∧
          stopping_chain[k]? = some m ∧ m.mod_status = UHURU_MOD_OK ∧
          (m.scan "/t/a.txt" (some "text/plain")).1 =
            (local_scan_apply_modules uhuru_file_status_cmp "/t/a.txt"
              (some "text/plain") stopping_chain
              (uhuru_report_init "/t/a.txt")).current_status) ∧
      (∀ k m, k ∈ (local_scan_apply_modules uhuru_file_status_cmp "/t/a.txt"
          (some "text/plain") stopping_chain (uhuru_report_init "/t/a.txt")).adopted →
        stopping_chain[k]? = some m → is_terminal (m.scan "/t/a.txt" (some "text/plain")).1 →
        k + 1 = n)) ∧
    (∀ v, v ∈ (local_scan_apply_modules uhuru_file_status_cmp "/t/a.txt"
        (some "text/plain") stopping_chain (uhuru_report_init "/t/a.txt")).calls.map
        Prod.snd →
      ¬ uhuru_file_status_cmp (local_scan_apply_modules uhuru_file_status_cmp "/t/a.txt"
        (some "text/plain") stopping_chain (uhuru_report_init "/t/a.txt")).current_status v
        < 0) :=
  ⟨uhuru_file_status_cmp_order, by decide, by decide,
    (C1_status_is_maximum_of_run_verdicts uhuru_file_status_cmp uhuru_file_status_cmp_order
      "/t/a.txt" (some "text/plain") stopping_chain (uhuru_report_init "/t/a.txt")).1,
    (C1_status_is_maximum_of_run_verdicts uhuru_file_status_cmp uhuru_file_status_cmp_order
      "/t/a.txt" (some "text/plain") stopping_chain
      (uhuru_report_init "/t/a.txt")).2.2.2.1⟩

/-- C2: whenever the verdict of the module of index k is adopted by
local_scan_apply_modules and is WHITE_LISTED or MALWARE, no scan function of a module
of higher index is invoked (every logged call has index at most k, and the last one
is that of module k), and the final status, also in the Report, is that verdict. -/
theorem C2_terminal_verdict_stops_chain
    (cmp : uhuru_file_status → uhuru_file_status → Int) (path : String)
    (mime_type : Option String) (mod_array : List uhuru_module) (report : uhuru_report)
    (k : Nat) (m : uhuru_module)
    (hk : k ∈ (local_scan_apply_modules cmp path mime_type mod_array report).adopted)
    (hm : mod_array[k]? = some m) (ht : is_terminal (m.scan path mime_type).1) :
    (∀ j v, (j, v) ∈ (local_scan_apply_modules cmp path mime_type mod_array report).calls →
      j ≤ k) ∧
    (k, (m.scan path mime_type).1) ∈
      (local_scan_apply_modules cmp path mime_type mod_array report).calls ∧
    (local_scan_apply_modules cmp path mime_type mod_array report).current_status
      = (m.scan path mime_type).1 ∧
    (local_scan_apply_modules cmp path mime_type mod_array report).report.status
      = (m.scan path mime_type).1 ∧
    m.mod_status = UHURU_MOD_OK := by
  obtain ⟨n, hI, hn⟩ := local_scan_apply_modules_inv cmp path mime_type mod_array report
  obtain ⟨hcur, hkn⟩ := (hI.adopted_terminal k hk).2 m hm ht
  have hterm : is_terminal
      (local_scan_apply_modules cmp path mime_type mod_array report).current_status := by
    rw [hcur]; exact ht
  obtain ⟨k1, hk1, hk1n⟩ := chain_inv_terminal_last hI hterm
  have hkk : k1 = k := by omega
  subst hkk
  obtain ⟨_, m1, hm1, hok, _, hst, _⟩ := hI.last_adopted k1 hk1
  rw [hm] at hm1
  cases hm1
  refine ⟨?_, hI.calls_complete k1 m (by omega) hm hok, hcur, hst, hok⟩
  intro j v hjv
  have := (hI.calls_sound j v hjv).1
  omega

/-- Witness of C2: on the chain CLEAN, MALWARE, counting module, the MALWARE verdict
of module 1 is adopted; the counting module (index 2) is not invoked and the status
is MALWARE. -/
theorem C2_terminal_verdict_stops_chain_witness :
    1 ∈ (local_scan_apply_modules uhuru_file_status_cmp "/t/bad.exe" none malware_chain
      (uhuru_report_init "/t/bad.exe")).adopted ∧
    malware_chain[1]? = some (fixed_module "m1" UHURU_MOD_OK UHURU_MALWARE (some "Eicar")) ∧
    is_terminal
      ((fixed_module "m1" UHURU_MOD_OK UHURU_MALWARE (some "Eicar")).scan "/t/bad.exe"
        none).1 ∧
    (local_scan_apply_modules uhuru_file_status_cmp "/t/bad.exe" none malware_chain
      (uhuru_report_init "/t/bad.exe")).calls = [(0, UHURU_CLEAN), (1, UHURU_MALWARE)] ∧
    ((∀ j v, (j, v) ∈ (local_scan_apply_modules uhuru_file_status_cmp "/t/bad.exe" none
        malware_chain (uhuru_report_init "/t/bad.exe")).calls → j ≤ 1) ∧
      (1, ((fixed_module "m1" UHURU_MOD_OK UHURU_MALWARE (some "Eicar")).scan "/t/bad.exe"
          none).1) ∈
        (local_scan_apply_modules uhuru_file_status_cmp "/t/bad.exe" none malware_chain
          (uhuru_report_init "/t/bad.exe")).calls ∧
      (local_scan_apply_modules uhuru_file_status_cmp "/t/bad.exe" none malware_chain
        (uhuru_report_init "/t/bad.exe")).current_status
        = ((fixed_module "m1" UHURU_MOD_OK UHURU_MALWARE (some "Eicar")).scan "/t/bad.exe"
          none).1 ∧
      (local_scan_apply_modules uhuru_file_status_cmp "/t/bad.exe" none malware_chain
        (uhuru_report_init "/t/bad.exe")).report.status
        = ((fixed_module "m1" UHURU_MOD_OK UHURU_MALWARE (some "Eicar")).scan "/t/bad.exe"
          none).1 ∧
      (fixed_module "m1" UHURU_MOD_OK UHURU_MALWARE (some "Eicar")).mod_status
        = UHURU_MOD_OK) :=
  ⟨by decide, rfl, by decide, by decide,
    C2_terminal_verdict_stops_chain uhuru_file_status_cmp "/t/bad.exe" none malware_chain
      (uhuru_report_init "/t/bad.exe") 1
      (fixed_module "m1" UHURU_MOD_OK UHURU_MALWARE (some "Eicar"))
      (by decide) rfl (by decide)⟩

/-- C3: when the comparison is that of a total preorder, the module recorded in the
Report at the end of local_scan_apply_modules (the last one adopted, of index k) is
the first module in registry order whose verdict has the final rank: the final
status and the status, mod_name and mod_report of the Report are those of module k,
every OK module before k returned a verdict strictly below the final status, and no
module run after k returned a verdict strictly above it. A verdict that is not
strictly greater than the current status leaves the status and the Report unchanged,
and when no verdict was adopted the Report is the one passed in. -/
theorem C3_recorded_module_is_first_of_final_rank
    (cmp : uhuru_file_status → uhuru_file_status → Int) (hcmp : verdict_order cmp)
    (path : String) (mime_type : Option String) (mod_array : List uhuru_module)
    (report : uhuru_report) :
    (∀ k, (local_scan_apply_modules cmp path mime_type mod_array report).adopted.getLast?
        = some k →
      ∃ m, mod_array[k]? = some m ∧ m.mod_status = UHURU_MOD_OK ∧
        (local_scan_apply_modules cmp path mime_type mod_array report).current_status
          = (m.scan path mime_type).1 ∧
        (local_scan_apply_modules cmp path mime_type mod_array report).report.status
          = (m.scan path mime_type).1 ∧
        (local_scan_apply_modules cmp path mime_type mod_array report).report.mod_name
          = some m.name ∧
        (local_scan_apply_modules cmp path mime_type mod_array report).report.mod_report
          = (m.scan path mime_type).2 ∧
        (∀ j mj, j < k → mod_array[j]? = some mj → mj.mod_status = UHURU_MOD_OK →
          cmp (mj.scan path mime_type).1
            (local_scan_apply_modules cmp path mime_type mod_array report).current_status
            < 0) ∧
        (∀ j v, (j, v) ∈ (local_scan_apply_modules cmp path mime_type mod_array report).calls →
          k < j →
          ¬ cmp (local_scan_apply_modules cmp path mime_type mod_array report).current_status
            v < 0)) ∧
    ((local_scan_apply_modules cmp path mime_type mod_array report).adopted = [] →
      (local_scan_apply_modules cmp path mime_type mod_array report).report = report) ∧
    (∀ (m : uhuru_module) (i : Nat) (st : apply_state),
      ¬ cmp st.current_status (m.scan path mime_type).1 < 0 →
      (apply_module cmp path mime_type m i st).current_status = st.current_status ∧
      (apply_module cmp path mime_type m i st).report = st.report ∧
      (apply_module cmp path mime_type m i st).adopted = st.adopted) := by
  obtain ⟨n, hI, _⟩ := local_scan_apply_modules_inv cmp path mime_type mod_array report
  refine ⟨?_, fun h => (hI.none_adopted h).2, ?_⟩
  · intro k hk
    obtain ⟨hkn, m, hm, hok, hcur, hst, hname, hrep⟩ := hI.last_adopted k hk
    refine ⟨m, hm, hok, hcur, hst, hname, hrep, ?_, ?_⟩
    · intro j mj hj hmj hokj
      exact (hI.ord hcmp).2.2 k hk j _ (hI.calls_complete j mj (by omega) hmj hokj) hj
    · intro j v hjv _
      exact (hI.ord hcmp).1 j v hjv
  · intro m i st hc
    simp [apply_module, hc]

/-- Witness of C3: two modules return SUSPICIOUS; the last adoption is that of the
first of them (index 1), and it is the one recorded in the Report. -/
theorem C3_recorded_module_is_first_of_final_rank_witness :
    verdict_order uhuru_file_status_cmp ∧
    (local_scan_apply_modules uhuru_file_status_cmp "/t/a.txt" none two_suspicious_chain
      (uhuru_report_init "/t/a.txt")).adopted.getLast? = some 1 ∧
    (local_scan_apply_modules uhuru_file_status_cmp "/t/a.txt" none two_suspicious_chain
      (uhuru_report_init "/t/a.txt")).report =
      { path := "/t/a.txt", status := UHURU_SUSPICIOUS, action := UHURU_ACTION_NONE,
        mod_name := some "m1", mod_report := some "first" } ∧
    (∃ m, two_suspicious_chain[1]? = some m ∧
      (local_scan_apply_modules uhuru_file_status_cmp "/t/a.txt" none two_suspicious_chain
        (uhuru_report_init "/t/a.txt")).report.mod_name = some m.name ∧
      (∀ j mj, j < 1 → two_suspicious_chain[j]? = some mj →
        mj.mod_status = UHURU_MOD_OK →
        uhuru_file_status_cmp (mj.scan "/t/a.txt" none).1
          (local_scan_apply_modules uhuru_file_status_cmp "/t/a.txt" none
            two_suspicious_chain (uhuru_report_init "/t/a.txt")).current_status < 0)) :=
  ⟨uhuru_file_status_cmp_order, by decide, by decide, by
    obtain ⟨m, h1, _, _, _, h5, _, h7, _⟩ :=
      (C3_recorded_module_is_first_of_final_rank uhuru_file_status_cmp
        uhuru_file_status_cmp_order "/t/a.txt" none two_suspicious_chain
        (uhuru_report_init "/t/a.txt")).1 1 (by decide)
    exact ⟨m, h1, h5, h7⟩⟩

/-- Whatever the ranks, as soon as WHITE_LISTED and MALWARE are both strictly above
UNDECIDED, a WHITE_LISTED module followed by a MALWARE module yields WHITE_LISTED
and the same two modules in the other order yield MALWARE. -/
theorem apply_modules_first_terminal_wins
    (cmp : uhuru_file_status → uhuru_file_status → Int)
    (hw : cmp UHURU_UNDECIDED UHURU_WHITE_LISTED < 0)
    (hm : cmp UHURU_UNDECIDED UHURU_MALWARE < 0) (path : String) (mime : Option String)
    (r0 : uhuru_report) :
    (local_scan_apply_modules cmp path mime
      [fixed_module "wl" UHURU_MOD_OK UHURU_WHITE_LISTED none,
       fixed_module "av" UHURU_MOD_OK UHURU_MALWARE none] r0).current_status
      = UHURU_WHITE_LISTED ∧
    (local_scan_apply_modules cmp path mime
      [fixed_module "av" UHURU_MOD_OK UHURU_MALWARE none,
       fixed_module "wl" UHURU_MOD_OK UHURU_WHITE_LISTED none] r0).current_status
      = UHURU_MALWARE := by
  constructor <;>
    simp [local_scan_apply_modules, apply_modules_loop, apply_module, fixed_module, hw, hm,
      is_terminal]

theorem call_callbacks_loop_eq_foldl {σ : Type} (callbacks : List (callback_entry σ))
    (report : uhuru_report) :
    ∀ (n i : Nat) (s : σ), i + n = callbacks.length →
      call_callbacks_loop callbacks report n i s =
        (callbacks.drop i).foldl (fun s e => e.callback report e.callback_data s) s := by
  intro n
  induction n with
  | zero =>
    intro i s h
    have : callbacks.drop i = [] := List.drop_eq_nil_of_le (by omega)
    simp [call_callbacks_loop, this]
  | succ n ih =>
    intro i s h
    have hi : i < callbacks.length := by omega
    have hd : callbacks.drop i = callbacks[i] :: callbacks.drop (i + 1) :=
      List.drop_eq_getElem_cons hi
    rw [hd]
    simp only [call_callbacks_loop, List.getElem?_eq_getElem hi, List.foldl_cons]
    exact ih (i + 1) _ (by omega)

theorem add_callbacks_callbacks {σ : Type} (es : List (callback_entry σ)) :
    ∀ (scan : uhuru_scan σ),
      (es.foldl (fun sc e => uhuru_scan_add_callback sc e.callback e.callback_data)
        scan).callbacks = scan.callbacks ++ es := by
  induction es with
  | nil => intro scan; simp
  | cons e rest ih =>
    intro scan
    rw [List.foldl_cons, ih]
    simp [uhuru_scan_add_callback]

/-- C4: after any sequence es of uhuru_scan_add_callback calls on a scan,
uhuru_scan_call_callbacks on a Report acts on the observers as the callbacks already
registered followed by those of es, each called once on the Report with the
callback_data of its own entry, in the order of registration. -/
theorem C4_callbacks_called_in_registration_order {σ : Type} (scan : uhuru_scan σ)
    (es : List (callback_entry σ)) (report : uhuru_report) (s : σ) :
    uhuru_scan_call_callbacks
        (es.foldl (fun sc e => uhuru_scan_add_callback sc e.callback e.callback_data) scan)
        report s =
      (scan.callbacks ++ es).foldl (fun s e => e.callback report e.callback_data s) s := by
  unfold uhuru_scan_call_callbacks
  rw [call_callbacks_loop_eq_foldl _ _ _ 0 s (by omega), add_callbacks_callbacks]
  simp

/-- With logging observers registered by uhuru_scan_add_callback on a scan without
callbacks, the log written by uhuru_scan_call_callbacks lists every registration
once, with its own data, in the order of registration. -/
theorem call_callbacks_log (scan : uhuru_scan (List (String × Option Nat × uhuru_report)))
    (hs : scan.callbacks = []) (regs : List (String × Option Nat)) (report : uhuru_report) :
    uhuru_scan_call_callbacks
        (regs.foldl (fun sc e => uhuru_scan_add_callback sc (log_callback e.1) e.2) scan)
        report [] =
      regs.map (fun e => (e.1, e.2, report)) := by
  have h1 : ∀ (rs : List (String × Option Nat))
      (sc : uhuru_scan (List (String × Option Nat × uhuru_report))),
      (rs.foldl (fun sc e => uhuru_scan_add_callback sc (log_callback e.1) e.2) sc).callbacks
        = sc.callbacks ++ rs.map (fun e =>
            ({ callback := log_callback e.1, callback_data := e.2 } :
              callback_entry (List (String × Option Nat × uhuru_report)))) := by
    intro rs
    induction rs with
    | nil => intro sc; simp
    | cons e rest ih =>
      intro sc
      rw [List.foldl_cons, ih]
      simp [uhuru_scan_add_callback]
  have h2 : ∀ (rs : List (String × Option Nat))
      (log : List (String × Option Nat × uhuru_report)),
      (rs.map (fun e =>
            ({ callback := log_callback e.1, callback_data := e.2 } :
              callback_entry (List (String × Option Nat × uhuru_report))))).foldl
          (fun s e => e.callback report e.callback_data s) log
        = log ++ rs.map (fun e => (e.1, e.2, report)) := by
    intro rs
    induction rs with
    | nil => intro log; simp
    | cons e rest ih =>
      intro log
      simp only [List.map_cons, List.foldl_cons]
      rw [ih]
      simp [log_callback]
  unfold uhuru_scan_call_callbacks
  rw [call_callbacks_loop_eq_foldl _ _ _ 0 [] (by omega), h1, hs]
  simpa using h2 regs []

/-! ## Properties of the local scan -/

/-- For an entry flagged IS_ERROR and not IS_REG, local_scan_entry fans out exactly
one Report, with status IERROR and the error text as mod_report, and touches nothing
else: no job is queued and no file is scanned. -/
theorem local_scan_entry_error_only {σ : Type} (env : scan_env σ)
    (status0 : uhuru_file_status) (scan : uhuru_scan σ) (full_path : String)
    (flags : dir_entry_flag) (errno : Int) (w : scan_world σ)
    (herr : flags.DIR_ENTRY_IS_ERROR = true) (hreg : flags.DIR_ENTRY_IS_REG = false) :
    local_scan_entry env status0 scan full_path flags errno w =
      { w with
        obs := uhuru_scan_call_callbacks scan
          { path := full_path, status := UHURU_IERROR, action := UHURU_ACTION_NONE,
            mod_name := none, mod_report := some (env.strerror errno) } w.obs } := by
  simp [local_scan_entry, herr, hreg, uhuru_report_init]

/-- For an entry flagged both IS_ERROR and IS_REG in a threaded scan, local_scan_entry
fans out the IERROR Report and then also queues the path as a scan job. -/
theorem local_scan_entry_error_and_reg_threaded {σ : Type} (env : scan_env σ)
    (status0 : uhuru_file_status) (scan : uhuru_scan σ) (full_path : String)
    (flags : dir_entry_flag) (errno : Int) (w : scan_world σ)
    (herr : flags.DIR_ENTRY_IS_ERROR = true) (hreg : flags.DIR_ENTRY_IS_REG = true)
    (hthr : scan.flags &&& UHURU_SCAN_THREADED ≠ 0) :
    (local_scan_entry env status0 scan full_path flags errno w).pool
      = w.pool ++ [full_path] := by
  simp [local_scan_entry, herr, hreg, hthr]

/-- C5, evaluation at the failing input: an entry flagged IS_ERROR and IS_REG with
error code 13. In a scan that is not threaded the observer receives the IERROR
Report and then a second Report for the same path, that of the file scan; in a
threaded scan the path is queued as a job after the IERROR Report. -/
theorem C5_error_entry_with_reg_flag_is_scanned :
    (local_scan_entry example_env UHURU_UNDECIDED (example_local_scan "/t" 0) "/t/priv"
      { DIR_ENTRY_IS_REG := true, DIR_ENTRY_IS_DIR := false, DIR_ENTRY_IS_ERROR := true }
      13 empty_world).obs =
      [("obs", some 7,
        { path := "/t/priv", status := UHURU_IERROR, action := UHURU_ACTION_NONE,
          mod_name := none, mod_report := some "Permission denied" }),
       ("obs", some 7,
        { path := "/t/priv", status := UHURU_UNKNOWN_FILE_TYPE, action := UHURU_ACTION_NONE,
          mod_name := none, mod_report := none })] ∧
    (local_scan_entry example_env UHURU_UNDECIDED
      (example_local_scan "/t" UHURU_SCAN_THREADED) "/t/priv"
      { DIR_ENTRY_IS_REG := true, DIR_ENTRY_IS_DIR := false, DIR_ENTRY_IS_ERROR := true }
      13 empty_world).pool = ["/t/priv"] := by
  constructor <;> decide

theorem local_scan_file_err {σ : Type} (env : scan_env σ) (status0 : uhuru_file_status)
    (scan : uhuru_scan σ) (magic : Option Nat) (path : String) (w : scan_world σ) :
    (local_scan_file env status0 scan magic path w).err = w.err := by
  unfold local_scan_file
  by_cases hv : env.verbose ≥ 3 <;> simp [hv]

theorem local_scan_entry_err {σ : Type} (env : scan_env σ) (status0 : uhuru_file_status)
    (scan : uhuru_scan σ) (full_path : String) (flags : dir_entry_flag) (errno : Int)
    (w : scan_world σ) :
    (local_scan_entry env status0 scan full_path flags errno w).err = w.err := by
  unfold local_scan_entry
  by_cases he : flags.DIR_ENTRY_IS_ERROR = true <;>
    by_cases hr : flags.DIR_ENTRY_IS_REG = true <;>
    by_cases ht : scan.flags &&& UHURU_SCAN_THREADED = 0 <;>
    simp [he, hr, ht, local_scan_file_err]

theorem local_scan_entries_err {σ : Type} (env : scan_env σ) (status0 : uhuru_file_status)
    (scan : uhuru_scan σ) (es : List dir_entry) :
    ∀ (w : scan_world σ),
      (es.foldl (fun w e => local_scan_entry env status0 scan e.full_path e.flags e.errno w)
        w).err = w.err := by
  induction es with
  | nil => intro w; rfl
  | cons e rest ih =>
    intro w
    rw [List.foldl_cons, ih, local_scan_entry_err]

/-- When stat of the root fails, local_scan_run writes the perror line and returns
COMPLETED, and then acts on the st_mode left in the buffer: when that is neither the
mode of a regular file nor that of a directory, the observers, the job queue and
stdout are left as they were. -/
theorem local_scan_run_stat_failure {σ : Type} (env : scan_env σ)
    (status0 : uhuru_file_status) (sb0 : Nat) (scan : uhuru_scan σ) (w : scan_world σ)
    (hstat : env.stat scan.path = none) :
    (local_scan_run env status0 sb0 scan w).1 = UHURU_SCAN_COMPLETED ∧
    (local_scan_run env status0 sb0 scan w).2.err = w.err ++ ["stat"] ∧
    (S_ISREG sb0 = false → S_ISDIR sb0 = false →
      (local_scan_run env status0 sb0 scan w).2.obs = w.obs ∧
      (local_scan_run env status0 sb0 scan w).2.pool = w.pool ∧
      (local_scan_run env status0 sb0 scan w).2.out = w.out) := by
  refine ⟨rfl, ?_, ?_⟩
  · unfold local_scan_run
    simp only [hstat]
    by_cases hr : S_ISREG sb0 = true <;>
      by_cases hd : S_ISDIR sb0 = true <;>
      by_cases ht : scan.flags &&& UHURU_SCAN_THREADED = 0 <;>
      simp [hr, hd, ht, local_scan_file_err, local_scan_entries_err]
  · intro hr hd
    unfold local_scan_run
    simp only [hstat]
    by_cases ht : scan.flags &&& UHURU_SCAN_THREADED = 0 <;> simp [hr, hd, ht]

/-- When stat of the root fails and the st_mode left in the buffer is that of a
regular file, local_scan_run scans the root that stat could not find: in a scan that
is not threaded the result is that of local_scan_file on the root after the perror
line, and in a threaded scan the root is queued as a job. -/
theorem local_scan_run_stat_failure_stale_reg {σ : Type} (env : scan_env σ)
    (status0 : uhuru_file_status) (sb0 : Nat) (scan : uhuru_scan σ) (w : scan_world σ)
    (hstat : env.stat scan.path = none) (hreg : S_ISREG sb0 = true) :
    (scan.flags &&& UHURU_SCAN_THREADED = 0 →
      (local_scan_run env status0 sb0 scan w).2 =
        local_scan_file env status0 scan none scan.path
          { w with err := w.err ++ ["stat"] }) ∧
    (scan.flags &&& UHURU_SCAN_THREADED ≠ 0 →
      (local_scan_run env status0 sb0 scan w).2.pool = w.pool ++ [scan.path]) := by
  constructor
  · intro ht
    simp [local_scan_run, hstat, hreg, ht]
  · intro ht
    simp [local_scan_run, hstat, hreg, ht]

/-- C6, evaluation at the failing input: stat fails for the root /t/gone of a local
scan with one logging observer. local_scan_run returns COMPLETED and writes the
perror line, and builds no IERROR Report. With the stale st_mode 0 the observer
receives nothing at all; with the stale st_mode 0100000 (a regular file) the root is
scanned and the observer receives the Report of that file scan, with status
UNKNOWN_FILE_TYPE, not IERROR. -/
theorem C6_stat_failure_emits_no_ierror_report :
    example_env.stat (example_local_scan "/t/gone" 0).path = none ∧
    (local_scan_run example_env UHURU_UNDECIDED 0 (example_local_scan "/t/gone" 0)
      empty_world).1 = UHURU_SCAN_COMPLETED ∧
    (local_scan_run example_env UHURU_UNDECIDED 0 (example_local_scan "/t/gone" 0)
      empty_world).2.err = ["stat"] ∧
    (local_scan_run example_env UHURU_UNDECIDED 0 (example_local_scan "/t/gone" 0)
      empty_world).2.obs = [] ∧
    S_ISREG 0o100000 = true ∧
    (local_scan_run example_env UHURU_UNDECIDED 0o100000 (example_local_scan "/t/gone" 0)
      empty_world).1 = UHURU_SCAN_COMPLETED ∧
    (local_scan_run example_env UHURU_UNDECIDED 0o100000 (example_local_scan "/t/gone" 0)
      empty_world).2.obs =
      [("obs", some 7,
        { path := "/t/gone", status := UHURU_UNKNOWN_FILE_TYPE,
          action := UHURU_ACTION_NONE, mod_name := none, mod_report := none })] ∧
    (local_scan_run example_env UHURU_UNDECIDED 0o100000
      (example_local_scan "/t/gone" UHURU_SCAN_THREADED) empty_world).2.pool
      = ["/t/gone"] := by
  refine ⟨rfl, ?_, ?_, ?_, ?_, ?_, ?_, ?_⟩ <;> decide

/-! ## Properties of the remote scan and of the common API -/

/-- In local mode uhuru_scan_start returns UHURU_SCAN_OK. -/
theorem uhuru_scan_start_local {σ : Type} (env : scan_env σ) (scan : uhuru_scan σ)
    (hl : scan.is_remote = false) :
    (uhuru_scan_start env scan).1 = start_value.of_scan_status UHURU_SCAN_OK := by
  simp [uhuru_scan_start, hl, local_scan_start]

/-- In remote mode, when client_socket_create returns a negative descriptor,
uhuru_scan_start returns the file status UHURU_IERROR, installs no handler and so
sends no frame. -/
theorem uhuru_scan_start_remote_failure {σ : Type} (env : scan_env σ) (scan : uhuru_scan σ)
    (hr : scan.is_remote = true)
    (hs : env.client_socket_create scan.rem.sock_path 10 < 0) :
    (uhuru_scan_start env scan).1 = start_value.of_file_status UHURU_IERROR ∧
    (uhuru_scan_start env scan).2.rem.handler = scan.rem.handler := by
  simp [uhuru_scan_start, hr, remote_scan_start, hs]

/-- In remote mode, when the socket is opened, uhuru_scan_start installs the handler
with the two callbacks, sends the SCAN frame, and returns no defined value. -/
theorem uhuru_scan_start_remote_success {σ : Type} (env : scan_env σ) (scan : uhuru_scan σ)
    (hr : scan.is_remote = true)
    (hs : ¬ env.client_socket_create scan.rem.sock_path 10 < 0) :
    (uhuru_scan_start env scan).1 = start_value.no_value ∧
    ∃ h, (uhuru_scan_start env scan).2.rem.handler = some h ∧
      h.sent = [{ verb := "SCAN", headers := [("Path", scan.path)] }] ∧
      h.input = env.daemon_frames ∧
      h.callbacks = [("SCAN_FILE", remote_cb.remote_scan_cb_scan_file),
        ("SCAN_END", remote_cb.remote_scan_cb_scan_end)] := by
  simp [uhuru_scan_start, hr, remote_scan_start, hs, protocol_handler_new,
    protocol_handler_add_callback, protocol_handler_send_msg]

/-- C7, evaluation at the failing inputs: in remote mode, when client_socket_create
returns -1, uhuru_scan_start returns the file status UHURU_IERROR, which is not the
scan status CANNOT_CONNECT (no handler is installed); and when the socket opens
(descriptor 3), it sends the SCAN frame and returns no defined value instead of OK. -/
theorem C7_remote_start_return_value :
    (uhuru_scan_start example_env (example_remote_scan "/t")).1
      = start_value.of_file_status UHURU_IERROR ∧
    (uhuru_scan_start example_env (example_remote_scan "/t")).1
      ≠ start_value.of_scan_status UHURU_SCAN_CANNOT_CONNECT ∧
    (uhuru_scan_start example_env (example_remote_scan "/t")).2.rem.handler = none ∧
    (uhuru_scan_start (example_env_connected []) (example_remote_scan "/t")).1
      = start_value.no_value ∧
    (uhuru_scan_start (example_env_connected []) (example_remote_scan "/t")).1
      ≠ start_value.of_scan_status UHURU_SCAN_OK ∧
    (uhuru_scan_start (example_env_connected []) (example_remote_scan "/t")).2.rem.handler
      = some { input_fd := 3, output_fd := 3, input := [],
               sent := [{ verb := "SCAN", headers := [("Path", "/t")] }],
               callbacks := [("SCAN_FILE", remote_cb.remote_scan_cb_scan_file),
                 ("SCAN_END", remote_cb.remote_scan_cb_scan_end)] } := by
  refine ⟨?_, ?_, ?_, ?_, ?_, ?_⟩ <;> decide

theorem remote_scan_run_closed {σ : Type} (env : scan_env σ) (scan : uhuru_scan σ) (s : σ)
    (h : protocol_handler) (hh : scan.rem.handler = some h) (hin : h.input = []) :
    remote_scan_run env scan s =
      some (UHURU_SCAN_COMPLETED,
        { scan with rem := { scan.rem with handler := some h } }, s) := by
  simp [remote_scan_run, hh, protocol_handler_receive, hin]

theorem remote_scan_run_scan_end {σ : Type} (env : scan_env σ) (scan : uhuru_scan σ) (s : σ)
    (h : protocol_handler) (f : protocol_frame) (rest : List protocol_frame)
    (hh : scan.rem.handler = some h)
    (hcb : h.callbacks.lookup "SCAN_END" = some remote_cb.remote_scan_cb_scan_end)
    (hin : h.input = f :: rest) (hv : f.verb = "SCAN_END") :
    remote_scan_run env scan s =
      some (UHURU_SCAN_COMPLETED,
        { scan with rem := { scan.rem with handler := some { h with input := rest } } },
        s) := by
  simp [remote_scan_run, hh, protocol_handler_receive, hin, hv, hcb, remote_cb_call,
    remote_scan_cb_scan_end]

theorem remote_scan_run_scan_file {σ : Type} (env : scan_env σ) (scan : uhuru_scan σ) (s : σ)
    (h : protocol_handler) (f : protocol_frame) (rest : List protocol_frame)
    (path status action : String) (hh : scan.rem.handler = some h)
    (hcb : h.callbacks.lookup "SCAN_FILE" = some remote_cb.remote_scan_cb_scan_file)
    (hin : h.input = f :: rest) (hv : f.verb = "SCAN_FILE")
    (hp : protocol_handler_get_header f "Path" = some path)
    (hs : protocol_handler_get_header f "Status" = some status)
    (ha : protocol_handler_get_header f "Action" = some action) :
    remote_scan_run env scan s =
      some (UHURU_SCAN_CONTINUE,
        { scan with rem := { scan.rem with handler := some { h with input := rest } } },
        uhuru_scan_call_callbacks scan
          { path := path, status := env.status_of_int (atoi status), action := atoi action,
            mod_name := protocol_handler_get_header f "Module-Name",
            mod_report := protocol_handler_get_header f "X-Status" } s) := by
  have hne : ¬ ("SCAN_FILE" = "SCAN_END") := by decide
  cases hx : protocol_handler_get_header f "X-Status" <;>
    simp [remote_scan_run, hh, protocol_handler_receive, hin, hv, hcb, remote_cb_call,
      remote_scan_cb_scan_file, hp, hs, ha, hx, hne, uhuru_report_init]

/-- For a remote scan whose handler has the callbacks that remote_scan_start
installs, one call of remote_scan_run makes one receive step: it returns COMPLETED
when the stream is closed and when the frame received is SCAN_END, and it returns
CONTINUE, after the Report of the frame was fanned out, when the frame is a
SCAN_FILE that carries its Path, Status and Action headers. -/
theorem remote_scan_run_statuses {σ : Type} (env : scan_env σ) (scan : uhuru_scan σ)
    (h : protocol_handler) (hh : scan.rem.handler = some h)
    (hcb1 : h.callbacks.lookup "SCAN_FILE" = some remote_cb.remote_scan_cb_scan_file)
    (hcb2 : h.callbacks.lookup "SCAN_END" = some remote_cb.remote_scan_cb_scan_end) :
    (∀ s, h.input = [] →
      remote_scan_run env scan s =
        some (UHURU_SCAN_COMPLETED,
          { scan with rem := { scan.rem with handler := some h } }, s)) ∧
    (∀ s f rest, h.input = f :: rest → f.verb = "SCAN_END" →
      remote_scan_run env scan s =
        some (UHURU_SCAN_COMPLETED,
          { scan with rem := { scan.rem with handler := some { h with input := rest } } },
          s)) ∧
    (∀ s f rest path status action, h.input = f :: rest → f.verb = "SCAN_FILE" →
      protocol_handler_get_header f "Path" = some path →
      protocol_handler_get_header f "Status" = some status →
      protocol_handler_get_header f "Action" = some action →
      remote_scan_run env scan s =
        some (UHURU_SCAN_CONTINUE,
          { scan with rem := { scan.rem with handler := some { h with input := rest } } },
          uhuru_scan_call_callbacks scan
            { path := path, status := env.status_of_int (atoi status),
              action := atoi action,
              mod_name := protocol_handler_get_header f "Module-Name",
              mod_report := protocol_handler_get_header f "X-Status" } s)) :=
  ⟨fun s hin => remote_scan_run_closed env scan s h hh hin,
    fun s f rest hin hv => remote_scan_run_scan_end env scan s h f rest hh hcb2 hin hv,
    fun s f rest path status action hin hv hp hs ha =>
      remote_scan_run_scan_file env scan s h f rest path status action hh hcb1 hin hv
        hp hs ha⟩

/-- The callback remote_scan_cb_scan_file has no result on a SCAN_FILE frame that
lacks the Status header, or the Action header: the NULL that
protocol_handler_get_header returns is passed to atoi. The X-Status header alone is
tested against NULL. -/
theorem remote_scan_cb_scan_file_missing_header {σ : Type} (env : scan_env σ)
    (scan : uhuru_scan σ) (f : protocol_frame) (s : σ)
    (hmiss : protocol_handler_get_header f "Status" = none ∨
      protocol_handler_get_header f "Action" = none) :
    remote_scan_cb_scan_file env scan f s = none := by
  unfold remote_scan_cb_scan_file
  rcases hmiss with h | h
  · cases hp : protocol_handler_get_header f "Path" <;>
      cases ha : protocol_handler_get_header f "Action" <;> simp [h]
  · cases hp : protocol_handler_get_header f "Path" <;>
      cases hs : protocol_handler_get_header f "Status" <;> simp [h]

/-- For a remote scan whose handler has the SCAN_FILE callback installed, a call of
remote_scan_run that receives a SCAN_FILE frame without its Status header, or
without its Action header, returns no status. -/
theorem remote_scan_run_missing_header {σ : Type} (env : scan_env σ) (scan : uhuru_scan σ)
    (s : σ) (h : protocol_handler) (f : protocol_frame) (rest : List protocol_frame)
    (hh : scan.rem.handler = some h)
    (hcb : h.callbacks.lookup "SCAN_FILE" = some remote_cb.remote_scan_cb_scan_file)
    (hin : h.input = f :: rest) (hv : f.verb = "SCAN_FILE")
    (hmiss : protocol_handler_get_header f "Status" = none ∨
      protocol_handler_get_header f "Action" = none) :
    remote_scan_run env scan s = none := by
  simp [remote_scan_run, hh, protocol_handler_receive, hin, hv, hcb, remote_cb_call,
    remote_scan_cb_scan_file_missing_header env scan f s hmiss]

/-- C9, counterexample: with socket-dir /var/run/uhuru and USER bob, the socket path
composed by remote_scan_init is /var/run/uhuru/uhuru-bob, not /var/run/uhuru/scan-bob. -/
theorem C9_counterexample :
    example_env.socket_dir = some "/var/run/uhuru" ∧ example_env.user = some "bob" ∧
    (remote_scan_init example_env (example_new_remote_scan "/t")).map
      (fun scan => scan.rem.sock_path) = some (some "/var/run/uhuru/uhuru-bob") ∧
    (remote_scan_init example_env (example_new_remote_scan "/t")).map
      (fun scan => scan.rem.sock_path) ≠
      some (some ("/var/run/uhuru" ++ "/scan-" ++ "bob")) := by
  refine ⟨rfl, rfl, ?_, ?_⟩ <;> decide

/-- C9, amended: for every configured socket directory d and every value u of the
USER variable, the socket path composed by remote_scan_init, and so by
uhuru_scan_new in remote mode for a path that realpath resolves, is d followed by
"/uhuru-" followed by u. -/
theorem C9_socket_path_amended {σ : Type} (env : scan_env σ) (d u : String)
    (hd : env.socket_dir = some d) (hu : env.user = some u) :
    (∀ scan0 : uhuru_scan σ, ∃ scan, remote_scan_init env scan0 = some scan ∧
      scan.rem.sock_path = some (d ++ "/uhuru-" ++ u)) ∧
    (∀ path flags rp, env.realpath path = some rp → env.uhuru_is_remote = true →
      ∃ scan, uhuru_scan_new env path flags = some scan ∧ scan.path = rp ∧
        scan.is_remote = true ∧ scan.rem.sock_path = some (d ++ "/uhuru-" ++ u)) := by
  constructor
  · intro scan0
    refine ⟨{ scan0 with rem := { scan0.rem with sock_path := some (d ++ ("/uhuru-" ++ u)) } },
      by simp [remote_scan_init, hd, hu], ?_⟩
    simp [String.append_assoc]
  · intro path flags rp hrp hr
    refine ⟨{ path := rp, flags := flags, callbacks := [], is_remote := true,
              loc := { thread_pool := false, private_magic_key := false },
              rem := { sock_path := some (d ++ ("/uhuru-" ++ u)), sock := 0,
                       handler := none } },
      by simp [uhuru_scan_new, hrp, hr, remote_scan_init, hd, hu], rfl, rfl, ?_⟩
    simp [String.append_assoc]

/-- Witness of the amended C9: socket-dir /var/run/uhuru and USER bob. -/
theorem C9_socket_path_amended_witness :
    example_env.socket_dir = some "/var/run/uhuru" ∧ example_env.user = some "bob" ∧
    (∃ scan, remote_scan_init example_env (example_new_remote_scan "/t") = some scan ∧
      scan.rem.sock_path = some ("/var/run/uhuru" ++ "/uhuru-" ++ "bob")) :=
  ⟨rfl, rfl,
    (C9_socket_path_amended example_env "/var/run/uhuru" "bob" rfl rfl).1
      (example_new_remote_scan "/t")⟩

end Scan
